import Mathlib

/-!
Verification development for `src/gemma/lora.py` (LoRA / DoRA adapter layer
and the `switch_to_lora` graph rewrite).

Modelling conventions (shallow embedding):
* Tensors are total real-valued functions `ℕ → ℝ` / `ℕ → ℕ → ℝ` together with
  explicit dimension fields; sums, matrix products and row norms range over
  `Finset.range dim`.  Exact real arithmetic stands in for floating point;
  integer dtypes (`int8` storage of quantized tensors) are abstracted to
  reals for values, but the dtype failure of `nn.init.normal_` on the `int8`
  adapter factor during quantized construction is modelled (see `initLoRA`).
* Python attribute presence (`hasattr` / `delattr` / `getattr(_, _, None)`) is
  modelled by `Option` fields.
* In-place tensor mutation is modelled by returning the updated layer state;
  a Python exception is modelled by an `Option String` error component carrying
  the state as mutated up to the point where the exception was raised
  (constructors, which leave no object behind on failure, return `Except`).
* `torch.empty` garbage and `nn.init.normal_` draws are modelled as explicit
  inputs (`LoRAInit`), since their values are arbitrary.
-/

noncomputable section

abbrev RMat : Type := ℕ → ℕ → ℝ

abbrev RVec : Type := ℕ → ℝ

/-- `w.norm(p=2, dim=1, keepdim=True)`: per-row L2 norm over the input
dimension (`nin` columns). -/
def rowNorm (nin : ℕ) (w : RMat) (i : ℕ) : ℝ :=
  Real.sqrt (∑ j ∈ Finset.range nin, w i j ^ 2)

/-- `torch.matmul` with inner dimension `k`. -/
def matmul (k : ℕ) (a b : RMat) : RMat :=
  fun i j => ∑ l ∈ Finset.range k, a i l * b l j

/-- `F.linear(x, w)` for a single input vector: `out i = ∑ j, w i j * x j`. -/
def linearApp (nin : ℕ) (w : RMat) (x : RVec) : RVec :=
  fun i => ∑ j ∈ Finset.range nin, w i j * x j

/-- Modelled from the spec: the base-layer capability (`gemma.model.Linear`,
not under `src/`).  Per spec section 6 it exposes `in_features`,
`out_features`, a quantization flag, a frozen weight tensor and, iff
quantized, a per-output-channel weight scaler. -/
structure LinearState where
  quant : Bool
  in_features : ℕ
  out_features : ℕ
  weight : RMat
  weight_scaler : Option RVec

/-- `LinearWithLoRA._quantize_weight(weight, quantizer)`: if `self.quant` and
the quantizer is present, rescale each output channel (`quantizer.unsqueeze(-1)`
broadcasts the scaler along the rows); otherwise return the raw matrix —
in Python the very same object, which is what makes the in-place
`weight += lora_weight` in `forward` write through to `self.weight`. -/
def quantize_weight (quant : Bool) (weight : RMat) (quantizer : Option RVec) : RMat :=
  match quant, quantizer with
  | true, some q => fun i j => weight i j * q i
  | _, _ => weight

/-- Modelled from the spec: `gemma.model.Linear.forward` — the affine
projection by the (reconstructed) frozen weight, no bias. -/
def baseForward (l : LinearState) (x : RVec) : RVec :=
  linearApp l.in_features (quantize_weight l.quant l.weight l.weight_scaler) x

/-- The state of a `LinearWithLoRA` layer (an `AdapterLayer` in the vocabulary of the spec).  Fields mirror the Python attributes; the `Option` fields are
absent (`none`) exactly when the corresponding Python attribute does not
exist on the object. -/
structure LinearWithLoRA where
  in_features : ℕ
  out_features : ℕ
  lora_rank : ℤ
  lora_scaler : ℝ
  quant : Bool
  dora : Bool
  weight : RMat
  weight_scaler : Option RVec
  weight_a : Option RMat
  weight_b : Option RMat
  weight_a_scaler : Option RVec
  weight_b_scaler : Option RVec
  m : RVec

/-- `LinearWithLoRA._apply_dora(weight, lora_weight)`:
`numerator = weight + self.lora_scaler * lora_weight`, normalize each row to
unit L2 norm, then rescale by the stored magnitude `self.m`. -/
def apply_dora (st : LinearWithLoRA) (weight lora_weight : RMat) : RMat :=
  let directional_numerator : RMat :=
    fun i j => weight i j + st.lora_scaler * lora_weight i j
  fun i j =>
    st.m i * (directional_numerator i j /
      rowNorm st.in_features directional_numerator i)

/-- `LinearWithLoRA.forward(x)`.  Returns the output together with the layer
state after the call: in the non-DoRA adapter branch `weight += lora_weight`
is an in-place add, and `_quantize_weight` returned `self.weight` itself
unless the layer is quantized with a present scaler, so in that aliased case
the addition writes through to the stored base weight. -/
def forward (st : LinearWithLoRA) (x : RVec) : RVec × LinearWithLoRA :=
  let weight := quantize_weight st.quant st.weight st.weight_scaler
  match st.weight_a, st.weight_b with
  | some wa, some wb =>
    let weight_a := quantize_weight st.quant wa st.weight_a_scaler
    let weight_b := quantize_weight st.quant wb st.weight_b_scaler
    let lora_weight := matmul st.lora_rank.toNat weight_b weight_a
    if st.dora then
      (linearApp st.in_features (apply_dora st weight lora_weight) x, st)
    else
      let weight' : RMat := fun i j => weight i j + lora_weight i j
      if st.quant && st.weight_scaler.isSome then
        (linearApp st.in_features weight' x, st)
      else
        (linearApp st.in_features weight' x, { st with weight := weight' })
  | _, _ => (linearApp st.in_features weight x, st)

/-- `LinearWithLoRA.merge_lora()`.  Returns the state after the call and the
exception raised, if any: the four `delattr` calls are unconditional, and
`weight_a_scaler` / `weight_b_scaler` exist only on quantized layers, so on a
non-quantized layer the third `delattr` raises `AttributeError` after the
weight has already been folded and the factors deleted — and before
`self.lora_rank = 0` is reached. -/
def merge_lora (st : LinearWithLoRA) : LinearWithLoRA × Option String :=
  if st.lora_rank > 0 then
    match st.weight_a with
    | none => (st, some "AttributeError: weight_a")
    | some wa =>
      match st.weight_b with
      | none => (st, some "AttributeError: weight_b")
      | some wb =>
        let weight_a := quantize_weight st.quant wa st.weight_a_scaler
        let weight_b := quantize_weight st.quant wb st.weight_b_scaler
        let lora_weight := matmul st.lora_rank.toNat weight_b weight_a
        let weight' : RMat :=
          if st.dora then apply_dora st st.weight lora_weight
          else fun i j => st.weight i j + lora_weight i j
        let st1 := { st with weight := weight', weight_a := none, weight_b := none }
        if st.weight_a_scaler.isSome then
          let st2 := { st1 with weight_a_scaler := none }
          if st.weight_b_scaler.isSome then
            ({ st2 with weight_b_scaler := none, lora_rank := 0 }, none)
          else (st2, some "AttributeError: weight_b_scaler")
        else (st1, some "AttributeError: weight_a_scaler")
  else (st, none)

/-- `LinearWithLoRA.enable_dora()`: a pure flag flip. -/
def enable_dora (st : LinearWithLoRA) : LinearWithLoRA :=
  { st with dora := true }

/-- The otherwise-unspecified values produced while constructing a layer:
the `torch.empty` base weight allocated by `Linear.__init__` (and, when
quantized, its uninitialized scaler), the `nn.init.normal_` draw for
`weight_a`, and the uninitialized adapter scalers. -/
structure LoRAInit where
  base_weight : RMat
  base_scaler : RVec
  a_init : RMat
  a_scaler : RVec
  b_scaler : RVec

/-- The layer state `LinearWithLoRA.__init__` builds when it completes:
`weight_b` starts at zero, the adapter scalers exist iff `quant` (mirroring
the allocation branches, although `initLoRA` below only ever reaches this
with `quant = false`), and the magnitude `m` is the per-row norm of the base
weight as allocated by `Linear.__init__` — i.e. of the placeholder
`ini.base_weight`. -/
def freshState (nin nout : ℕ) (lora_rank : ℤ) (lora_scaler : ℝ)
    (use_dora quant : Bool) (ini : LoRAInit) : LinearWithLoRA :=
  { in_features := nin
    out_features := nout
    lora_rank := lora_rank
    lora_scaler := lora_scaler / (lora_rank : ℝ)
    quant := quant
    dora := use_dora
    weight := ini.base_weight
    weight_scaler := if quant then some ini.base_scaler else none
    weight_a := some ini.a_init
    weight_b := some (fun _ _ => 0)
    weight_a_scaler := if quant then some ini.a_scaler else none
    weight_b_scaler := if quant then some ini.b_scaler else none
    m := rowNorm nin ini.base_weight }

/-- `LinearWithLoRA.__init__`, in program order:
`self.lora_scaler = lora_scaler / lora_rank` raises `ZeroDivisionError` when
`lora_rank == 0`; allocating a factor with a negative dimension raises; and
when `quant` is true the factors are allocated as `int8`, so the subsequent
`nn.init.normal_(self.weight_a)` raises `RuntimeError` (integer dtypes have
no `normal_` kernel; the later `.norm` on the `int8` base weight would raise
as well).  Construction therefore only completes for non-quantized layers;
on failure no layer object exists. -/
def initLoRA (nin nout : ℕ) (lora_rank : ℤ) (lora_scaler : ℝ)
    (use_dora quant : Bool) (ini : LoRAInit) : Except String LinearWithLoRA :=
  if lora_rank = 0 then .error "ZeroDivisionError: division by zero"
  else if lora_rank < 0 then .error "RuntimeError: negative tensor dimension"
  else if quant then .error "RuntimeError: normal_ not implemented for Char"
  else .ok (freshState nin nout lora_rank lora_scaler use_dora quant ini)

/-!
The host module graph (`model.named_modules()` tree).  Distinct nodes are
distinct values; object sharing of one submodule at two places in the tree
is not modelled (the claims do not involve it).
-/

mutual

inductive ModuleNode where
  | base : LinearState → ModuleNode
  | lora : LinearWithLoRA → ModuleNode
  | container : ModuleList → ModuleNode

inductive ModuleList where
  | nil : ModuleList
  | cons : String → ModuleNode → ModuleList → ModuleList

end

/-- `isinstance(module, Linear)` together with the base-layer fields the
rewrite reads from a matched module (`in_features`, `out_features`, `quant`,
`weight`, `weight_scaler`).  Crucially, `LinearWithLoRA` is a subclass of
`Linear`, so an already-converted node still passes the `isinstance` check. -/
def srcView : ModuleNode → Option LinearState
  | .base l => some l
  | .lora s => some ⟨s.quant, s.in_features, s.out_features, s.weight, s.weight_scaler⟩
  | .container _ => none

/-- The Python substring test `pat in s`. -/
def strContains (pat s : String) : Bool :=
  s.data.tails.any fun t => pat.data.isPrefixOf t

/-- Qualified names as produced by `named_modules()`: the root is `""`, a
child of the root is `"name"`, deeper nodes are dot-joined. -/
def qualifyName (pre name : String) : String :=
  if pre = "" then name else pre ++ "." ++ name

/-- One replacement step of `switch_to_lora`: construct a `LinearWithLoRA`
with the `in_features` / `out_features` / `quant`, copy the weight of the matched module over the freshly initialized one
(`lora_layer.weight.data = module.weight.data`), and, if the matched module
is quantized, copy its `weight_scaler` as well.  For a quantized matched
module the construction itself raises (see `initLoRA`), aborting the pass. -/
def buildReplacement (rank : ℤ) (lora_scaler : ℝ) (use_dora : Bool)
    (src : LinearState) (ini : LoRAInit) : Except String LinearWithLoRA :=
  (initLoRA src.in_features src.out_features rank lora_scaler use_dora src.quant ini).map
    fun st =>
      { st with
        weight := src.weight
        weight_scaler := if src.quant then src.weight_scaler else st.weight_scaler }

/-- The effect of the `for replace_name in replace_names` loop on one node of
the graph, given the qualified name of that node.  No matching name: the node is
untouched.  Exactly one matching name: the node is replaced.  Two or more
matching names: after the first replacement the old module object is no
longer in the tree, so in the second iteration `get_parent_model` returns
`None` and `parent._modules` raises `AttributeError`. -/
def rewriteLeaf (names : List String) (rank : ℤ) (lora_scaler : ℝ)
    (use_dora : Bool) (ini : ℕ → LoRAInit) (orig : ModuleNode)
    (src : LinearState) (full : String) (k : ℕ) :
    Except String (ModuleNode × ℕ) :=
  match names.filter (fun p => strContains p full) with
  | [] => .ok (orig, k)
  | [_] =>
    (buildReplacement rank lora_scaler use_dora src (ini k)).map
      fun st => (ModuleNode.lora st, k + 1)
  | _ :: _ :: _ => .error "AttributeError: NoneType object has no attribute _modules"

mutual

/-- Net effect of one `switch_to_lora` pass on a non-root node together with
its qualified name.  Containers fail the `isinstance(module, Linear)` check
and are traversed; `Linear` and `LinearWithLoRA` leaves are candidates for
replacement.  `k` indexes the stream of construction-time garbage/init draws
(one `LinearWithLoRA.__init__` consumes one draw). -/
def rewriteMod (names : List String) (rank : ℤ) (lora_scaler : ℝ)
    (use_dora : Bool) (ini : ℕ → LoRAInit) :
    ModuleNode → String → ℕ → Except String (ModuleNode × ℕ)
  | .base l, full, k =>
    rewriteLeaf names rank lora_scaler use_dora ini (.base l) l full k
  | .lora s, full, k =>
    rewriteLeaf names rank lora_scaler use_dora ini (.lora s)
      ⟨s.quant, s.in_features, s.out_features, s.weight, s.weight_scaler⟩ full k
  | .container cs, full, k =>
    (rewriteList names rank lora_scaler use_dora ini cs full k).map
      fun p => (ModuleNode.container p.1, p.2)

/-- One `switch_to_lora` pass over the named children of a container whose
own qualified name is `pre`. -/
def rewriteList (names : List String) (rank : ℤ) (lora_scaler : ℝ)
    (use_dora : Bool) (ini : ℕ → LoRAInit) :
    ModuleList → String → ℕ → Except String (ModuleList × ℕ)
  | .nil, _, k => .ok (.nil, k)
  | .cons name child rest, pre, k => do
    let (child', k') ← rewriteMod names rank lora_scaler use_dora ini child
      (qualifyName pre name) k
    let (rest', k'') ← rewriteList names rank lora_scaler use_dora ini rest pre k'
    .ok (.cons name child' rest', k'')

end

/-- `switch_to_lora(model, replace_names, rank, lora_scaler, use_dora)`.
`replace_names = None` defaults to `["qkv_proj"]`.  `named_modules()` yields
the root itself under the name `""`; a matched root has no parent, so
`get_parent_model` returns `None` and the replacement crashes (after the
replacement layer was already constructed). -/
def switch_to_lora (replace_names : Option (List String)) (rank : ℤ)
    (lora_scaler : ℝ) (use_dora : Bool) (ini : ℕ → LoRAInit)
    (model : ModuleNode) : Except String ModuleNode :=
  let names := replace_names.getD ["qkv_proj"]
  match model with
  | .container cs =>
    (rewriteList names rank lora_scaler use_dora ini cs "" 0).map
      fun p => ModuleNode.container p.1
  | m =>
    match srcView m with
    | some src =>
      match names.filter (fun p => strContains p "") with
      | [] => .ok m
      | _ :: _ =>
        (buildReplacement rank lora_scaler use_dora src (ini 0)).bind
          fun _ => .error "AttributeError: NoneType object has no attribute _modules"
    | none => .ok m

mutual

/-- Two module graphs have the same structure (shape, child names, node
kinds) and the same base-layer data (shape fields, quant flag, frozen weight
and weight scaler) at every node.  Adapter substate (`weight_a`, `weight_b`,
`lora_rank`, `lora_scaler`, `m`, `dora`, adapter scalers) is not compared. -/
def sameShapeBase : ModuleNode → ModuleNode → Prop
  | .base l, .base l' => l = l'
  | .lora s, .lora s' =>
    s.in_features = s'.in_features ∧ s.out_features = s'.out_features ∧
    s.quant = s'.quant ∧ s.weight = s'.weight ∧ s.weight_scaler = s'.weight_scaler
  | .container cs, .container cs' => sameShapeBaseList cs cs'
  | _, _ => False

/-- Pointwise `sameShapeBase` on equally named child lists. -/
def sameShapeBaseList : ModuleList → ModuleList → Prop
  | .nil, .nil => True
  | .cons n c r, .cons n' c' r' => n = n' ∧ sameShapeBase c c' ∧ sameShapeBaseList r r'
  | _, _ => False

end

/-!  Concrete inputs used by counterexamples and witnesses.  -/

/-- The zero matrix. -/
def zeroMat : RMat := fun _ _ => 0

/-- The all-ones matrix. -/
def onesMat : RMat := fun _ _ => 1

/-- Every row is `(3, 4, 0, 0, ...)`; its two-column row norm is `5`. -/
def w34 : RMat := fun _ j => if j = 0 then 3 else if j = 1 then 4 else 0

/-- Every row is `(1, 0, 0, ...)`; its two-column row norm is `1`. -/
def e10 : RMat := fun _ j => if j = 0 then 1 else 0

/-- The all-ones input vector. -/
def onesVec : RVec := fun _ => 1

/-- The first standard basis vector as an input. -/
def e0Vec : RVec := fun j => if j = 0 then 1 else 0

/-- A non-quantized 1-in 1-out layer of rank 1 with zero base weight and
all-ones adapter factors. -/
def stMut : LinearWithLoRA :=
  { in_features := 1, out_features := 1, lora_rank := 1, lora_scaler := 32
    quant := false, dora := false, weight := zeroMat, weight_scaler := none
    weight_a := some onesMat, weight_b := some onesMat
    weight_a_scaler := none, weight_b_scaler := none, m := fun _ => 0 }

/-- A non-quantized 1-in 1-out layer of rank 4 with all-ones adapter
factors, as `switch_to_lora` would install on a float model. -/
def stMerge : LinearWithLoRA :=
  { in_features := 1, out_features := 1, lora_rank := 4, lora_scaler := 8
    quant := false, dora := false, weight := zeroMat, weight_scaler := none
    weight_a := some onesMat, weight_b := some onesMat
    weight_a_scaler := none, weight_b_scaler := none, m := fun _ => 0 }

/-- A layer in the post-merge shape: `lora_rank = 0`, factors and adapter
scalers absent. -/
def stMerged : LinearWithLoRA :=
  { in_features := 1, out_features := 1, lora_rank := 0, lora_scaler := 8
    quant := false, dora := false, weight := onesMat, weight_scaler := none
    weight_a := none, weight_b := none
    weight_a_scaler := none, weight_b_scaler := none, m := fun _ => 1 }

/-- A non-quantized 2-in 1-out rank-1 layer with base weight rows `(3,4)`,
all-ones `weight_a`, zero `weight_b`. -/
def stAdd : LinearWithLoRA :=
  { in_features := 2, out_features := 1, lora_rank := 1, lora_scaler := 32
    quant := false, dora := false, weight := w34, weight_scaler := none
    weight_a := some onesMat, weight_b := some onesMat
    weight_a_scaler := none, weight_b_scaler := none, m := fun _ => 5 }

/-- Like `stAdd` but with DoRA enabled and zero `weight_b` (so the lora
product is zero and the DoRA numerator is the base weight itself). -/
def stDora : LinearWithLoRA :=
  { in_features := 2, out_features := 1, lora_rank := 1, lora_scaler := 32
    quant := false, dora := true, weight := w34, weight_scaler := none
    weight_a := some onesMat, weight_b := some zeroMat
    weight_a_scaler := none, weight_b_scaler := none, m := fun _ => 5 }

/-- Construction-time draws with base-weight placeholder `w34` and zero
adapter draw. -/
def ini34 : LoRAInit :=
  { base_weight := w34, base_scaler := fun _ => 2
    a_init := zeroMat, a_scaler := fun _ => 0, b_scaler := fun _ => 0 }

/-- A base `Linear` leaf: non-quantized, 2-in 1-out, weight rows `(1,0)`. -/
def linE10 : LinearState :=
  { quant := false, in_features := 2, out_features := 1
    weight := e10, weight_scaler := none }

/-- A host model: one container holding a single child named `qkv_proj`. -/
def hostModel : ModuleNode :=
  .container (.cons "qkv_proj" (.base linE10) .nil)

/-- A stream of construction draws whose `weight_a` init is all ones. -/
def iniStream1 : ℕ → LoRAInit :=
  fun _ => { base_weight := w34, base_scaler := fun _ => 0
             a_init := onesMat, a_scaler := fun _ => 0, b_scaler := fun _ => 0 }

/-- A stream of construction draws whose `weight_a` init is all twos. -/
def iniStream2 : ℕ → LoRAInit :=
  fun _ => { base_weight := w34, base_scaler := fun _ => 0
             a_init := fun _ _ => 2, a_scaler := fun _ => 0, b_scaler := fun _ => 0 }

/-- First `switch_to_lora` pass over `hostModel`. -/
def pass1 : Except String ModuleNode :=
  switch_to_lora (some ["qkv_proj"]) 4 32 false iniStream1 hostModel

/-- Second `switch_to_lora` pass, applied to the result of the first with an
independent stream of initialization draws. -/
def pass2 : Except String ModuleNode :=
  pass1.bind (switch_to_lora (some ["qkv_proj"]) 4 32 false iniStream2)

/-- Reads the `weight_a` entry `(0,0)` of the unique child of a one-child
container model, with default values elsewhere. -/
def probeA : Except String ModuleNode → ℝ
  | .ok (.container (.cons _ (.lora st) _)) => (st.weight_a.elim 0 fun a => a 0 0)
  | _ => 37

/-- Reads the adapter state of the unique child of a one-child container
model. -/
def probeState : Except String ModuleNode → Option LinearWithLoRA
  | .ok (.container (.cons _ (.lora st) _)) => some st
  | _ => none

/-- The layer installed by the first pass over `hostModel`: freshly
constructed from draw `iniStream1 0`, base weight then overwritten by the
copy of `linE10.weight`.  Its magnitude `m` was already computed from the
placeholder `w34` and is not recomputed after the copy. -/
def stPass1 : LinearWithLoRA :=
  { freshState 2 1 4 32 false false (iniStream1 0) with weight := linE10.weight }

/-- The layer installed by the second pass: rebuilt from the first-pass
layer (which still passes `isinstance(module, Linear)`), with a fresh
`weight_a` draw from the second stream. -/
def stPass2 : LinearWithLoRA :=
  { freshState 2 1 4 32 false false (iniStream2 0) with weight := stPass1.weight }

/-- The graph after one pass. -/
def model1 : ModuleNode := .container (.cons "qkv_proj" (.lora stPass1) .nil)

/-- The graph after two passes. -/
def model2 : ModuleNode := .container (.cons "qkv_proj" (.lora stPass2) .nil)

/-!
Helper lemmas.
-/

/-- Numeric square root fact used by concrete evaluations. -/
theorem sqrt25 : Real.sqrt 25 = 5 := by
  rw [show (25 : ℝ) = 5 ^ 2 by norm_num, Real.sqrt_sq (by norm_num)]

/-- The two-column row norm of `w34` is `5`. -/
theorem rowNorm_w34 (i : ℕ) : rowNorm 2 w34 i = 5 := by
  simp [rowNorm, w34, Finset.sum_range_succ]
  norm_num [sqrt25]

/-- The two-column row norm of `e10` is `1`. -/
theorem rowNorm_e10 (i : ℕ) : rowNorm 2 e10 i = 1 := by
  simp [rowNorm, e10, Finset.sum_range_succ]

/-- A row with vanishing row norm vanishes entrywise (within range). -/
theorem rowNorm_zero_entry (nin : ℕ) (w : RMat) (i : ℕ)
    (h : rowNorm nin w i = 0) : ∀ j ∈ Finset.range nin, w i j = 0 := by
  intro j hj
  have hnn : 0 ≤ ∑ j ∈ Finset.range nin, w i j ^ 2 :=
    Finset.sum_nonneg fun _ _ => sq_nonneg _
  have hsum : ∑ j ∈ Finset.range nin, w i j ^ 2 = 0 := by
    have := Real.sqrt_eq_zero'.mp h
    linarith
  have := (Finset.sum_eq_zero_iff_of_nonneg fun j _ => sq_nonneg (w i j)).mp hsum j hj
  exact pow_eq_zero_iff two_ne_zero |>.mp this

/-- Scaling a unit-normalized row by a nonnegative constant produces a row of
norm exactly that constant (provided the original row norm is nonzero). -/
theorem sqrt_sum_scaled (n : ℕ) (f : ℕ → ℝ) (c : ℝ) (hc : 0 ≤ c)
    (hnz : Real.sqrt (∑ j ∈ Finset.range n, f j ^ 2) ≠ 0) :
    Real.sqrt (∑ j ∈ Finset.range n,
      (c * (f j / Real.sqrt (∑ j' ∈ Finset.range n, f j' ^ 2))) ^ 2) = c := by
  have hS0 : 0 ≤ ∑ j ∈ Finset.range n, f j ^ 2 :=
    Finset.sum_nonneg fun _ _ => sq_nonneg _
  set d : ℝ := Real.sqrt (∑ j ∈ Finset.range n, f j ^ 2) with hd
  have hd2 : d ^ 2 = ∑ j ∈ Finset.range n, f j ^ 2 := Real.sq_sqrt hS0
  have hdne : d ≠ 0 := hnz
  have hterm : ∀ j, (c * (f j / d)) ^ 2 = c ^ 2 / d ^ 2 * f j ^ 2 := by
    intro j; field_simp; ring
  rw [Finset.sum_congr rfl fun j _ => hterm j, ← Finset.mul_sum, ← hd2]
  rw [show c ^ 2 / d ^ 2 * d ^ 2 = c ^ 2 by field_simp]
  exact Real.sqrt_sq hc

/-- The defining property of `_apply_dora`: each row of its result has L2
norm equal to the stored magnitude, whatever the lora weight, provided the
magnitude entry is nonnegative and the numerator row does not vanish. -/
theorem rowNorm_apply_dora (st : LinearWithLoRA) (w lw : RMat) (i : ℕ)
    (hm : 0 ≤ st.m i)
    (hnz : rowNorm st.in_features
      (fun i' j => w i' j + st.lora_scaler * lw i' j) i ≠ 0) :
    rowNorm st.in_features (apply_dora st w lw) i = st.m i := by
  unfold rowNorm apply_dora
  unfold rowNorm at hnz
  exact sqrt_sum_scaled st.in_features (fun j => w i j + st.lora_scaler * lw i j)
    (st.m i) hm hnz

/-- A matrix product with a zero left factor is zero. -/
theorem matmul_zero_left (k : ℕ) (b : RMat) : matmul k (fun _ _ => 0) b = fun _ _ => 0 := by
  funext i j
  simp [matmul]

/-- In `merge_lora` with DoRA enabled, the stored weight is replaced by
`_apply_dora` of the raw stored weight and the reconstructed lora product,
whether or not the subsequent `delattr` calls raise. -/
theorem merge_weight_dora (st : LinearWithLoRA) (wa wb : RMat)
    (hd : st.dora = true) (ha : st.weight_a = some wa) (hb : st.weight_b = some wb)
    (hr : 0 < st.lora_rank) :
    (merge_lora st).1.weight = apply_dora st st.weight
      (matmul st.lora_rank.toNat (quantize_weight st.quant wb st.weight_b_scaler)
        (quantize_weight st.quant wa st.weight_a_scaler)) := by
  simp only [merge_lora, ha, hb]
  rw [if_pos hr, hd]
  simp only [if_true]
  split <;> first | (split <;> rfl) | rfl

mutual

/-- `sameShapeBase` is reflexive. -/
theorem sameShapeBase_refl : ∀ (m : ModuleNode), sameShapeBase m m
  | .base _ => rfl
  | .lora _ => ⟨rfl, rfl, rfl, rfl, rfl⟩
  | .container cs => sameShapeBaseList_refl cs

/-- `sameShapeBaseList` is reflexive. -/
theorem sameShapeBaseList_refl : ∀ (cs : ModuleList), sameShapeBaseList cs cs
  | .nil => trivial
  | .cons _ c r => ⟨rfl, sameShapeBase_refl c, sameShapeBaseList_refl r⟩

end

/-- A successful `buildReplacement` yields a layer whose base fields coincide
with the matched module: same shape and quant flag, the copied weight, and
the weight scaler copied when quantized (and absent otherwise). -/
theorem buildReplacement_ok (rank : ℤ) (ls : ℝ) (ud : Bool) (src : LinearState)
    (ini : LoRAInit) (st : LinearWithLoRA)
    (h : buildReplacement rank ls ud src ini = .ok st) :
    st.quant = src.quant ∧ st.in_features = src.in_features ∧
    st.out_features = src.out_features ∧ st.weight = src.weight ∧
    st.weight_scaler = (if src.quant then src.weight_scaler else none) := by
  by_cases h0 : rank = 0
  · rw [buildReplacement, initLoRA, if_pos h0] at h
    simp [Except.map] at h
  · by_cases hneg : rank < 0
    · rw [buildReplacement, initLoRA, if_neg h0, if_pos hneg] at h
      simp [Except.map] at h
    · rw [buildReplacement, initLoRA, if_neg h0, if_neg hneg] at h
      by_cases hq : src.quant = true
      · rw [if_pos hq] at h
        simp [Except.map] at h
      · rw [if_neg hq] at h
        simp only [Except.map, Except.ok.injEq] at h
        subst h
        simp only [Bool.not_eq_true] at hq
        simp [freshState, hq]

/-- One leaf, rewritten in two successive passes with the same qualified
name: the second pass produces a node with the same base data as the first
pass left behind (either both passes skip it, or the second pass rebuilds it
from the base fields the first replacement copied). -/
theorem leaf_twice (names : List String) (rank : ℤ) (ls : ℝ) (ud : Bool)
    (ini1 ini2 : ℕ → LoRAInit) (orig : ModuleNode) (src : LinearState)
    (full : String) (k1 k2 k1' k2' : ℕ) (m1 m2 : ModuleNode)
    (hview : srcView orig = some src)
    (h1 : rewriteLeaf names rank ls ud ini1 orig src full k1 = .ok (m1, k1'))
    (h2 : rewriteMod names rank ls ud ini2 m1 full k2 = .ok (m2, k2')) :
    sameShapeBase m2 m1 := by
  cases e : names.filter (fun p => strContains p full) with
  | nil =>
    rw [rewriteLeaf, e] at h1
    simp only [Except.ok.injEq, Prod.mk.injEq] at h1
    obtain ⟨hm1, -⟩ := h1
    subst hm1
    cases orig with
    | base l =>
      rw [rewriteMod, rewriteLeaf, e] at h2
      simp only [Except.ok.injEq, Prod.mk.injEq] at h2
      obtain ⟨hm2, -⟩ := h2
      subst hm2
      exact sameShapeBase_refl _
    | lora s =>
      rw [rewriteMod, rewriteLeaf, e] at h2
      simp only [Except.ok.injEq, Prod.mk.injEq] at h2
      obtain ⟨hm2, -⟩ := h2
      subst hm2
      exact sameShapeBase_refl _
    | container cs => simp [srcView] at hview
  | cons p rest =>
    cases rest with
    | nil =>
      rw [rewriteLeaf, e] at h1
      cases eb : buildReplacement rank ls ud src (ini1 k1) with
      | error err => rw [eb] at h1; simp [Except.map] at h1
      | ok st1 =>
        rw [eb] at h1
        simp only [Except.map, Except.ok.injEq, Prod.mk.injEq] at h1
        obtain ⟨hm1, -⟩ := h1
        subst hm1
        rw [rewriteMod, rewriteLeaf, e] at h2
        cases eb2 : buildReplacement rank ls ud
            ⟨st1.quant, st1.in_features, st1.out_features, st1.weight, st1.weight_scaler⟩
            (ini2 k2) with
        | error err => rw [eb2] at h2; simp [Except.map] at h2
        | ok st2 =>
          rw [eb2] at h2
          simp only [Except.map, Except.ok.injEq, Prod.mk.injEq] at h2
          obtain ⟨hm2, -⟩ := h2
          subst hm2
          have B1 := buildReplacement_ok rank ls ud src (ini1 k1) st1 eb
          have B2 := buildReplacement_ok rank ls ud
            ⟨st1.quant, st1.in_features, st1.out_features, st1.weight, st1.weight_scaler⟩
            (ini2 k2) st2 eb2
          refine ⟨B2.2.1, B2.2.2.1, B2.1, B2.2.2.2.1, ?_⟩
          have h5 : st2.weight_scaler = if st1.quant then st1.weight_scaler else none :=
            B2.2.2.2.2
          have hq1 : st1.quant = src.quant := B1.1
          have hws1 : st1.weight_scaler = if src.quant then src.weight_scaler else none :=
            B1.2.2.2.2
          rw [h5, hq1, hws1]
          cases src.quant <;> simp
    | cons q rest' =>
      rw [rewriteLeaf, e] at h1
      simp at h1

mutual

/-- Rewriting a node in two successive passes (same names, same qualified
name, arbitrary draw streams and counters) preserves structure and base
weights. -/
theorem rewriteMod_twice (names : List String) (rank : ℤ) (ls : ℝ) (ud : Bool)
    (ini1 ini2 : ℕ → LoRAInit) :
    ∀ (m : ModuleNode) (full : String) (k1 k2 k1' k2' : ℕ) (m1 m2 : ModuleNode),
      rewriteMod names rank ls ud ini1 m full k1 = .ok (m1, k1') →
      rewriteMod names rank ls ud ini2 m1 full k2 = .ok (m2, k2') →
      sameShapeBase m2 m1
  | .base l, full, k1, k2, k1', k2', m1, m2, h1, h2 =>
    leaf_twice names rank ls ud ini1 ini2 (.base l) l full k1 k2 k1' k2' m1 m2 rfl h1 h2
  | .lora s, full, k1, k2, k1', k2', m1, m2, h1, h2 =>
    leaf_twice names rank ls ud ini1 ini2 (.lora s)
      ⟨s.quant, s.in_features, s.out_features, s.weight, s.weight_scaler⟩
      full k1 k2 k1' k2' m1 m2 rfl h1 h2
  | .container cs, full, k1, k2, k1', k2', m1, m2, h1, h2 => by
    rw [rewriteMod] at h1
    cases e1 : rewriteList names rank ls ud ini1 cs full k1 with
    | error err => rw [e1] at h1; simp [Except.map] at h1
    | ok p1 =>
      rw [e1] at h1
      simp only [Except.map, Except.ok.injEq, Prod.mk.injEq] at h1
      obtain ⟨hm1, -⟩ := h1
      subst hm1
      rw [rewriteMod] at h2
      cases e2 : rewriteList names rank ls ud ini2 p1.1 full k2 with
      | error err => rw [e2] at h2; simp [Except.map] at h2
      | ok p2 =>
        rw [e2] at h2
        simp only [Except.map, Except.ok.injEq, Prod.mk.injEq] at h2
        obtain ⟨hm2, -⟩ := h2
        subst hm2
        exact rewriteList_twice names rank ls ud ini1 ini2 cs full k1 k2 p1.2 p2.2 p1.1 p2.1
          (by rw [e1]) (by rw [e2])

/-- Rewriting a child list in two successive passes preserves structure and
base weights, childwise. -/
theorem rewriteList_twice (names : List String) (rank : ℤ) (ls : ℝ) (ud : Bool)
    (ini1 ini2 : ℕ → LoRAInit) :
    ∀ (cs : ModuleList) (pre : String) (k1 k2 k1' k2' : ℕ) (cs1 cs2 : ModuleList),
      rewriteList names rank ls ud ini1 cs pre k1 = .ok (cs1, k1') →
      rewriteList names rank ls ud ini2 cs1 pre k2 = .ok (cs2, k2') →
      sameShapeBaseList cs2 cs1
  | .nil, pre, k1, k2, k1', k2', cs1, cs2, h1, h2 => by
    rw [rewriteList] at h1
    simp only [Except.ok.injEq, Prod.mk.injEq] at h1
    obtain ⟨hc1, -⟩ := h1
    subst hc1
    rw [rewriteList] at h2
    simp only [Except.ok.injEq, Prod.mk.injEq] at h2
    obtain ⟨hc2, -⟩ := h2
    subst hc2
    trivial
  | .cons n c rest, pre, k1, k2, k1', k2', cs1, cs2, h1, h2 => by
    rw [rewriteList] at h1
    cases ec1 : rewriteMod names rank ls ud ini1 c (qualifyName pre n) k1 with
    | error err => rw [ec1] at h1; simp [Bind.bind, Except.bind] at h1
    | ok pc1 =>
      obtain ⟨c1, ka⟩ := pc1
      rw [ec1] at h1
      simp only [Bind.bind, Except.bind] at h1
      cases er1 : rewriteList names rank ls ud ini1 rest pre ka with
      | error err => rw [er1] at h1; simp at h1
      | ok pr1 =>
        obtain ⟨r1, kb⟩ := pr1
        rw [er1] at h1
        simp only [Except.ok.injEq, Prod.mk.injEq] at h1
        obtain ⟨hc1, -⟩ := h1
        subst hc1
        rw [rewriteList] at h2
        cases ec2 : rewriteMod names rank ls ud ini2 c1 (qualifyName pre n) k2 with
        | error err => rw [ec2] at h2; simp [Bind.bind, Except.bind] at h2
        | ok pc2 =>
          obtain ⟨c2, kc⟩ := pc2
          rw [ec2] at h2
          simp only [Bind.bind, Except.bind] at h2
          cases er2 : rewriteList names rank ls ud ini2 r1 pre kc with
          | error err => rw [er2] at h2; simp at h2
          | ok pr2 =>
            obtain ⟨r2, kd⟩ := pr2
            rw [er2] at h2
            simp only [Except.ok.injEq, Prod.mk.injEq] at h2
            obtain ⟨hc2, -⟩ := h2
            subst hc2
            refine ⟨rfl, ?_, ?_⟩
            · exact rewriteMod_twice names rank ls ud ini1 ini2 c (qualifyName pre n)
                k1 k2 ka kc c1 c2 ec1 ec2
            · exact rewriteList_twice names rank ls ud ini1 ini2 rest pre ka kc
                kb kd r1 r2 er1 er2

end

/-- The first pass over `hostModel` evaluates to `model1`. -/
theorem switch_once_eval :
    switch_to_lora (some ["qkv_proj"]) 4 32 false iniStream1 hostModel = .ok model1 := rfl

/-- The second pass over `model1` evaluates to `model2`. -/
theorem switch_twice_eval :
    switch_to_lora (some ["qkv_proj"]) 4 32 false iniStream2 model1 = .ok model2 := rfl

/-!
Claim theorems.
-/

/-- Claim C1 (code bug): the claim says that for every AdapterLayer with
`lora_rank > 0`, `forward` is unchanged across `merge_lora` and after the
merge `lora_rank == 0` with the factors absent, for all quantization and
DoRA flag combinations.  On a non-quantized layer (here `stMerge`,
`lora_rank = 4`, `quant = false`) `merge_lora` raises `AttributeError`
because it unconditionally deletes `weight_a_scaler`, which only exists when
`quant` is true; the exception fires after the factors were deleted and
before `lora_rank = 0` is reached, so the layer is left with
`lora_rank = 4` and no `weight_a`. -/
theorem C1_merge_lora_raises_on_nonquant :
    (merge_lora stMerge).2 = some "AttributeError: weight_a_scaler" ∧
    (merge_lora stMerge).1.lora_rank = 4 ∧
    (merge_lora stMerge).1.weight_a = none := by
  refine ⟨?_, ?_, ?_⟩ <;> simp [merge_lora, stMerge]

/-- Claim C2 (code bug): the claim says `forward` never modifies the stored
base weight.  On the non-quantized, non-DoRA layer `stMut` (base weight `0`,
rank-1 all-ones factors), `_quantize_weight` returns `self.weight` itself,
so the in-place `weight += lora_weight` writes through: after one `forward`
call the stored weight entry `(0,0)` has changed from `0` to `1`. -/
theorem C2_forward_mutates_frozen_weight :
    stMut.weight 0 0 = 0 ∧ ((forward stMut onesVec).2).weight 0 0 = 1 := by
  constructor
  · simp [stMut, zeroMat]
  · simp [forward, stMut, quantize_weight, matmul, zeroMat, onesMat, Finset.sum_range_one]

/-- Claim C3 (counterexample): applying `switch_to_lora` twice with the same
target substrings is claimed to yield an identical graph with no module
replaced on the second pass.  In fact `LinearWithLoRA` is an instance of
`Linear`, so the second pass replaces the converted node again with a fresh
adapter: with distinct initialization draws the two results differ (the
`weight_a` entry is `2` after two passes and `1` after one). -/
theorem C3_second_pass_replaces_again : pass2 ≠ pass1 := by
  have h2 : probeA pass2 = 2 := rfl
  have h1 : probeA pass1 = 1 := rfl
  intro h
  rw [h, h1] at h2
  norm_num at h2

/-- Claim C3 (amended): applying `switch_to_lora` twice with the same target
substrings yields a graph with the same structure, the same child names, and
the same base-layer data (shape, quant flag, frozen weight, weight scaler)
at every node as applying it once — but the matched modules are replaced
again on the second pass, so their adapter substate is freshly
re-initialized rather than preserved. -/
theorem C3_rewrite_twice_same_shape_and_base (replace_names : Option (List String))
    (rank : ℤ) (ls : ℝ) (ud : Bool) (ini1 ini2 : ℕ → LoRAInit)
    (model m1 m2 : ModuleNode)
    (h1 : switch_to_lora replace_names rank ls ud ini1 model = .ok m1)
    (h2 : switch_to_lora replace_names rank ls ud ini2 m1 = .ok m2) :
    sameShapeBase m2 m1 := by
  cases model with
  | container cs =>
    simp only [switch_to_lora] at h1
    cases e1 : rewriteList (replace_names.getD ["qkv_proj"]) rank ls ud ini1 cs "" 0 with
    | error err => rw [e1] at h1; simp [Except.map] at h1
    | ok p1 =>
      obtain ⟨cs1, ka⟩ := p1
      rw [e1] at h1
      simp only [Except.map, Except.ok.injEq] at h1
      subst h1
      simp only [switch_to_lora] at h2
      cases e2 : rewriteList (replace_names.getD ["qkv_proj"]) rank ls ud ini2 cs1 "" 0 with
      | error err => rw [e2] at h2; simp [Except.map] at h2
      | ok p2 =>
        obtain ⟨cs2, kb⟩ := p2
        rw [e2] at h2
        simp only [Except.map, Except.ok.injEq] at h2
        subst h2
        exact rewriteList_twice (replace_names.getD ["qkv_proj"]) rank ls ud ini1 ini2
          cs "" 0 0 ka kb cs1 cs2 e1 e2
  | base l =>
    simp only [switch_to_lora, srcView] at h1
    cases e : (replace_names.getD ["qkv_proj"]).filter (fun p => strContains p "") with
    | nil =>
      rw [e] at h1
      simp only [Except.ok.injEq] at h1
      subst h1
      simp only [switch_to_lora, srcView] at h2
      rw [e] at h2
      simp only [Except.ok.injEq] at h2
      subst h2
      exact sameShapeBase_refl _
    | cons p rest =>
      rw [e] at h1
      cases eb : buildReplacement rank ls ud l (ini1 0) with
      | error err => rw [eb] at h1; simp [Except.bind] at h1
      | ok st => rw [eb] at h1; simp [Except.bind] at h1
  | lora s =>
    simp only [switch_to_lora, srcView] at h1
    cases e : (replace_names.getD ["qkv_proj"]).filter (fun p => strContains p "") with
    | nil =>
      rw [e] at h1
      simp only [Except.ok.injEq] at h1
      subst h1
      simp only [switch_to_lora, srcView] at h2
      rw [e] at h2
      simp only [Except.ok.injEq] at h2
      subst h2
      exact sameShapeBase_refl _
    | cons p rest =>
      rw [e] at h1
      cases eb : buildReplacement rank ls ud
          ⟨s.quant, s.in_features, s.out_features, s.weight, s.weight_scaler⟩ (ini1 0) with
      | error err => rw [eb] at h1; simp [Except.bind] at h1
      | ok st => rw [eb] at h1; simp [Except.bind] at h1

/-- Claim C3 witness: the amended theorem applied to the concrete host model
and two concrete passes. -/
theorem C3_rewrite_twice_witness : sameShapeBase model2 model1 :=
  C3_rewrite_twice_same_shape_and_base (some ["qkv_proj"]) 4 32 false iniStream1
    iniStream2 hostModel model1 model2 switch_once_eval switch_twice_eval

/-- Every non-quantized fresh layer computes the base forward: `weight_b`
starts at zero, so the lora product vanishes; in the non-DoRA branch the
effective weight is the base weight plus zero, and in the DoRA branch the
numerator is the base weight itself, whose rows are renormalized to their
own norms (`m` was computed from this very weight at direct construction). -/
theorem fresh_nonquant_forward (nin nout : ℕ) (rank : ℤ) (scaler : ℝ)
    (use_dora : Bool) (ini : LoRAInit) (x : RVec) :
    (forward (freshState nin nout rank scaler use_dora false ini) x).1
      = baseForward ⟨false, nin, nout, ini.base_weight, none⟩ x := by
  cases use_dora
  · simp [forward, freshState, matmul_zero_left, quantize_weight, baseForward]
  · simp [forward, freshState, matmul_zero_left, quantize_weight, baseForward,
      apply_dora, linearApp]
    funext i
    refine Finset.sum_congr rfl fun j hj => ?_
    simp only []
    by_cases hz : rowNorm nin ini.base_weight i = 0
    · have h0 := rowNorm_zero_entry nin ini.base_weight i hz j hj
      simp [hz, h0]
    · have he : rowNorm nin (fun i j => ini.base_weight i j) i
          = rowNorm nin ini.base_weight i := rfl
      rw [he, mul_comm (rowNorm nin ini.base_weight i)
        (ini.base_weight i j / rowNorm nin ini.base_weight i), div_mul_cancel₀ _ hz]

/-- Claim C4 (code bug): the claim asserts the fresh-layer no-op for any
quantization and DoRA flags, but with `quant=True` the constructor itself
always raises (`nn.init.normal_` on the `int8` `weight_a`; the `.norm` of
the `int8` base weight would raise too), so no quantized fresh layer is ever
produced and its `forward` is unreachable.  For every layer construction
actually completes — necessarily non-quantized — the claimed equality with
the un-adapted base layer does hold, for both DoRA settings. -/
theorem C4_quantized_init_raises (nin nout : ℕ) (rank : ℤ) (scaler : ℝ)
    (use_dora : Bool) (ini : LoRAInit) (x : RVec) (hr : 1 ≤ rank) :
    initLoRA nin nout rank scaler use_dora true ini
        = Except.error "RuntimeError: normal_ not implemented for Char" ∧
    ∀ st, initLoRA nin nout rank scaler use_dora false ini = Except.ok st →
      (forward st x).1
        = baseForward ⟨false, nin, nout, ini.base_weight, none⟩ x := by
  have h0 : ¬ rank = 0 := by omega
  have hneg : ¬ rank < 0 := by omega
  constructor
  · simp [initLoRA, h0, hneg]
  · intro st h
    simp only [initLoRA, h0, hneg, if_false, Bool.false_eq_true,
      Except.ok.injEq, ite_false] at h
    subst h
    exact fresh_nonquant_forward nin nout rank scaler use_dora ini x

/-- Claim C4 witness: the theorem applied at rank 4 with DoRA on — the
quantized construction errors, and the constructible non-quantized fresh
layer forwards exactly like its base layer. -/
theorem C4_quantized_init_witness : (1 : ℤ) ≤ 4 ∧
    initLoRA 2 1 4 32 true true ini34
        = Except.error "RuntimeError: normal_ not implemented for Char" ∧
    (forward (freshState 2 1 4 32 true false ini34) onesVec).1
      = baseForward ⟨false, 2, 1, ini34.base_weight, none⟩ onesVec :=
  have h := C4_quantized_init_raises 2 1 4 32 true ini34 onesVec (by decide)
  ⟨by decide, h.1, h.2 (freshState 2 1 4 32 true false ini34) rfl⟩

/-- Claim C5 (confirmed): for an AdapterLayer with `lora_rank > 0`, factors
present and DoRA disabled, `forward(x)` is `x` multiplied by the transpose of
(effective base weight + effective `weight_b` @ effective `weight_a`), and
the stored `lora_scaler` does not occur in this additive branch. -/
theorem C5_forward_additive_without_scaler (st : LinearWithLoRA) (x : RVec)
    (wa wb : RMat) (hd : st.dora = false) (ha : st.weight_a = some wa)
    (hb : st.weight_b = some wb) (hr : 0 < st.lora_rank) :
    (forward st x).1 = linearApp st.in_features
      (fun i j => quantize_weight st.quant st.weight st.weight_scaler i j
        + matmul st.lora_rank.toNat (quantize_weight st.quant wb st.weight_b_scaler)
            (quantize_weight st.quant wa st.weight_a_scaler) i j) x := by
  simp only [forward, ha, hb, hd, Bool.false_eq_true, if_false]
  split <;> rfl

/-- Claim C5 witness: the theorem applied to the concrete layer `stAdd`. -/
theorem C5_forward_additive_witness : stAdd.dora = false ∧
    stAdd.weight_a = some onesMat ∧ stAdd.weight_b = some onesMat ∧
    0 < stAdd.lora_rank ∧
    (forward stAdd onesVec).1 = linearApp stAdd.in_features
      (fun i j => quantize_weight stAdd.quant stAdd.weight stAdd.weight_scaler i j
        + matmul stAdd.lora_rank.toNat
            (quantize_weight stAdd.quant onesMat stAdd.weight_b_scaler)
            (quantize_weight stAdd.quant onesMat stAdd.weight_a_scaler) i j) onesVec :=
  ⟨rfl, rfl, rfl, by decide,
    C5_forward_additive_without_scaler stAdd onesVec onesMat onesMat rfl rfl rfl (by decide)⟩

/-- Claim C6 (confirmed): for a DoRA-enabled AdapterLayer, the weight stored
by `merge_lora` (the `_apply_dora` result) has per-row L2 norms equal, row by
row, to the magnitude vector `m`, independent of the adapter factor values —
provided the magnitude entry is nonnegative (it is a norm at construction)
and the corresponding row of `weight + lora_scaler * lora_weight` is not all
zero, as the claim itself stipulates. -/
theorem C6_dora_merge_row_norm_equals_magnitude (st : LinearWithLoRA)
    (wa wb : RMat) (i : ℕ) (hd : st.dora = true) (ha : st.weight_a = some wa)
    (hb : st.weight_b = some wb) (hr : 0 < st.lora_rank) (hm : 0 ≤ st.m i)
    (hnz : rowNorm st.in_features
      (fun i' j => st.weight i' j + st.lora_scaler *
        matmul st.lora_rank.toNat (quantize_weight st.quant wb st.weight_b_scaler)
          (quantize_weight st.quant wa st.weight_a_scaler) i' j) i ≠ 0) :
    rowNorm st.in_features ((merge_lora st).1.weight) i = st.m i := by
  rw [merge_weight_dora st wa wb hd ha hb hr]
  exact rowNorm_apply_dora st st.weight _ i hm hnz

/-- Claim C6 witness: the theorem applied to the concrete DoRA layer
`stDora`, whose numerator row `(3,4)` has norm `5 ≠ 0` and whose magnitude
entry is `5`. -/
theorem C6_dora_merge_row_norm_witness :
    stDora.dora = true ∧ stDora.weight_a = some onesMat ∧
    stDora.weight_b = some zeroMat ∧ 0 < stDora.lora_rank ∧ 0 ≤ stDora.m 0 ∧
    rowNorm stDora.in_features
      (fun i' j => stDora.weight i' j + stDora.lora_scaler *
        matmul stDora.lora_rank.toNat
          (quantize_weight stDora.quant zeroMat stDora.weight_b_scaler)
          (quantize_weight stDora.quant onesMat stDora.weight_a_scaler) i' j) 0 ≠ 0 ∧
    rowNorm stDora.in_features ((merge_lora stDora).1.weight) 0 = stDora.m 0 :=
  have hnz : rowNorm stDora.in_features
      (fun i' j => stDora.weight i' j + stDora.lora_scaler *
        matmul stDora.lora_rank.toNat
          (quantize_weight stDora.quant zeroMat stDora.weight_b_scaler)
          (quantize_weight stDora.quant onesMat stDora.weight_a_scaler) i' j) 0 ≠ 0 := by
    norm_num [stDora, quantize_weight, matmul, zeroMat, onesMat, rowNorm, w34,
      Finset.sum_range_succ, Finset.sum_range_zero, sqrt25]
  ⟨rfl, rfl, rfl, by decide, by norm_num [stDora], hnz,
    C6_dora_merge_row_norm_equals_magnitude stDora onesMat zeroMat 0 rfl rfl rfl
      (by decide) (by norm_num [stDora]) hnz⟩

/-- Claim C7 (code bug): the claim says the magnitude `m` of a layer
installed by `switch_to_lora` equals the per-row norms of the copied
original weight.  In the code, `__init__` computes `m` from the freshly
allocated placeholder weight and `switch_to_lora` copies the original weight
only afterwards, without recomputing `m`: over `hostModel` (original weight
rows `(1,0)`, placeholder rows `(3,4)`) the installed layer has `m 0 = 5`
while the copied weight has row norm `1`. -/
theorem C7_magnitude_from_placeholder : probeState pass1 = some stPass1 ∧
    stPass1.m 0 = 5 ∧ rowNorm stPass1.in_features stPass1.weight 0 = 1 ∧
    (5 : ℝ) ≠ 1 := by
  refine ⟨rfl, ?_, ?_, by norm_num⟩
  · have h : stPass1.m 0 = rowNorm 2 w34 0 := rfl
    rw [h, rowNorm_w34]
  · have h : rowNorm stPass1.in_features stPass1.weight 0 = rowNorm 2 e10 0 := rfl
    rw [h, rowNorm_e10]

/-- Claim C8 (confirmed): constructing a `LinearWithLoRA` with `rank == 0`
fails immediately with the division-by-zero error from
`lora_scaler / lora_rank`, and no layer state is produced. -/
theorem C8_zero_rank_construction_raises (nin nout : ℕ) (scaler : ℝ)
    (use_dora quant : Bool) (ini : LoRAInit) :
    initLoRA nin nout 0 scaler use_dora quant ini
      = Except.error "ZeroDivisionError: division by zero" := rfl

/-- Claim C9 (confirmed): `_quantize_weight` returns the raw matrix with each
row `i` multiplied by scaler entry `i` when the quantization flag is set and
the scaler is present, and returns the raw matrix unchanged when the flag is
false (or the scaler absent); the same function is applied uniformly to the
base weight, `weight_a` and `weight_b` in `forward` and `merge_lora`. -/
theorem C9_quantize_weight_reconstruction (w : RMat) (s : RVec) (q : Option RVec) :
    quantize_weight false w q = w ∧
    quantize_weight true w (some s) = (fun i j => w i j * s i) ∧
    quantize_weight true w none = w := by
  refine ⟨?_, rfl, rfl⟩
  cases q <;> rfl

/-- Claim C10 (confirmed): calling `merge_lora` on a layer whose `lora_rank`
is `0` — in particular a second call after a successful merge — raises no
error and returns the state entirely unchanged. -/
theorem C10_merge_lora_noop_when_rank_zero (st : LinearWithLoRA)
    (h : st.lora_rank = 0) : merge_lora st = (st, none) := by
  simp [merge_lora, h]

/-- Claim C10 witness: the theorem applied to the concrete post-merge layer
`stMerged`. -/
theorem C10_merge_lora_noop_witness :
    stMerged.lora_rank = 0 ∧ merge_lora stMerged = (stMerged, none) :=
  ⟨rfl, C10_merge_lora_noop_when_rank_zero stMerged rfl⟩
